import Mathlib

/-!
Verification of the f2j pixel-intensity transform and quality-benchmark engine.

The definitions below are shallow embeddings of the C sources:
* the `transform` enum and the per-type transform functions of f2j.c
  (`shortImgTransform`, `uShortImgTransform`, `byteImgTransform`,
  `sByteImgTransform`, `floatDoubleTransform`), including the
  `FIT_TO_RANGE` clamp macro and the `UPDATE_FLIPPING_INDEX` vertical
  flip state machine;
* `performQualityBenchmarking` of benchmark.c, including the 64-bit
  unsigned squared-error accumulator, the residual image computation and
  the PSNR emission logic.

C `int` arithmetic is modelled on ℤ with explicit wrap at 2^32 where the
source can overflow; the `unsigned long long` accumulator is a ℕ reduced
mod 2^64.  C `double` values are modelled as real numbers.  The Gaussian
noise hooks (the build has `#define noise` in f2j.h, so the hooks and
their clamps are compiled in) are modelled by explicit noise-sample
parameters; the uninitialised generators of the reference program always
return 0.
-/

/-- The `transform` enum of f2j.h. -/
inductive Transform where
  | LOG
  | NEGATIVE_LOG
  | LINEAR
  | NEGATIVE_LINEAR
  | RAW
  | NEGATIVE_RAW
  | SQRT
  | NEGATIVE_SQRT
  | SQUARED
  | NEGATIVE_SQUARED
  | POWER
  | NEGATIVE_POWER
  | DEFAULT
deriving DecidableEq, Repr

/-- The `FIT_TO_RANGE(min,max,var)` macro of f2j.c: clamp `v` into `[lo,hi]`. -/
def fitToRange (lo hi v : ℤ) : ℤ :=
  if v < lo then lo else if hi < v then hi else v

/-- One step of the `UPDATE_FLIPPING_INDEX()` macro of f2j.c: the state is the
pair `(index, dif)`; each step increments both and, when `dif` reaches `width`,
resets `dif` and moves `index` back two rows.  `index` is kept in ℤ (the C
`size_t` value only matters while it is in bounds). -/
def updateFlippingIndex (width : ℕ) (s : ℤ × ℕ) : ℤ × ℕ :=
  if width ≤ s.2 + 1 then (s.1 + 1 - 2 * width, 0) else (s.1 + 1, s.2 + 1)

/-- The flipping-index state after `ii` loop iterations, starting from
`index = len - width`, `dif = 0` as in every transform function of f2j.c. -/
def flipState (width len : ℕ) : ℕ → ℤ × ℕ
  | 0 => ((len : ℤ) - width, 0)
  | n + 1 => updateFlippingIndex width (flipState width len n)

/-- The raw-data index read when writing output position `ii`. -/
def flipIndex (width len ii : ℕ) : ℤ :=
  (flipState width len ii).1

/-- `shortImgTransform` of f2j.c (16-bit signed sources): RAW shifts by
`+32768`, NEGATIVE_RAW computes `32767 - v`; the noise build adds the integer
noise sample and clamps with `FIT_TO_RANGE(0,65535,·)`.  Any other transform
is rejected. -/
def shortImgTransform (g : ℕ → ℤ) (rawData : List ℤ) (t : Transform)
    (len width : ℕ) : Option (List ℤ) :=
  if len < 1 then none
  else if t = Transform.RAW then
    some ((List.range len).map fun ii =>
      fitToRange 0 65535 (rawData.getD (flipIndex width len ii).toNat 0 + 32768 + g ii))
  else if t = Transform.NEGATIVE_RAW then
    some ((List.range len).map fun ii =>
      fitToRange 0 65535 (32767 - rawData.getD (flipIndex width len ii).toNat 0 + g ii))
  else none

/-- `uShortImgTransform` of f2j.c (16-bit unsigned sources). -/
def uShortImgTransform (g : ℕ → ℤ) (rawData : List ℤ) (t : Transform)
    (len width : ℕ) : Option (List ℤ) :=
  if len < 1 then none
  else if t = Transform.RAW then
    some ((List.range len).map fun ii =>
      fitToRange 0 65535 (rawData.getD (flipIndex width len ii).toNat 0 + g ii))
  else if t = Transform.NEGATIVE_RAW then
    some ((List.range len).map fun ii =>
      fitToRange 0 65535 (65535 - rawData.getD (flipIndex width len ii).toNat 0 + g ii))
  else none

/-- `byteImgTransform` of f2j.c (8-bit unsigned sources, clamped to 255). -/
def byteImgTransform (g : ℕ → ℤ) (rawData : List ℤ) (t : Transform)
    (len width : ℕ) : Option (List ℤ) :=
  if len < 1 then none
  else if t = Transform.RAW then
    some ((List.range len).map fun ii =>
      fitToRange 0 255 (rawData.getD (flipIndex width len ii).toNat 0 + g ii))
  else if t = Transform.NEGATIVE_RAW then
    some ((List.range len).map fun ii =>
      fitToRange 0 255 (255 - rawData.getD (flipIndex width len ii).toNat 0 + g ii))
  else none

/-- `sByteImgTransform` of f2j.c (8-bit signed sources).  RAW computes
`128 + v`; the NEGATIVE_RAW branch of the source computes `127 + v`
(its comment says "Invert raw transform."). -/
def sByteImgTransform (g : ℕ → ℤ) (rawData : List ℤ) (t : Transform)
    (len width : ℕ) : Option (List ℤ) :=
  if len < 1 then none
  else if t = Transform.RAW then
    some ((List.range len).map fun ii =>
      fitToRange 0 255 (128 + rawData.getD (flipIndex width len ii).toNat 0 + g ii))
  else if t = Transform.NEGATIVE_RAW then
    some ((List.range len).map fun ii =>
      fitToRange 0 255 (127 + rawData.getD (flipIndex width len ii).toNat 0 + g ii))
  else none

/-- `intImgTransform` of f2j.c: 32-bit signed integer sources are rejected. -/
def intImgTransform (_rawData : List ℤ) (_t : Transform) (_len _width : ℕ) :
    Option (List ℤ) :=
  none

/-- `uIntImgTransform` of f2j.c: 32-bit unsigned sources are rejected. -/
def uIntImgTransform (_rawData : List ℤ) (_t : Transform) (_len _width : ℕ) :
    Option (List ℤ) :=
  none

/-- `longLongImgTransform` of f2j.c: 64-bit integer sources are rejected. -/
def longLongImgTransform (_rawData : List ℤ) (_t : Transform) (_len _width : ℕ) :
    Option (List ℤ) :=
  none

/-- The per-sample map applied by `shortImgTransform` (noise sample `gv`). -/
def shortPixelMap (t : Transform) (gv v : ℤ) : ℤ :=
  if t = Transform.RAW then fitToRange 0 65535 (v + 32768 + gv)
  else if t = Transform.NEGATIVE_RAW then fitToRange 0 65535 (32767 - v + gv)
  else 0

/-- `out` is an optional intensity buffer whose elements all lie in `[lo,hi]`. -/
def outputInRange (lo hi : ℤ) (out : Option (List ℤ)) : Prop :=
  ∀ l, out = some l → ∀ x ∈ l, lo ≤ x ∧ x ≤ hi

/-- The fields of OpenJPEG `opj_image_comp_t` read by benchmark.c. -/
structure OpjComp where
  w : ℕ
  h : ℕ
  prec : ℕ
  sgnd : Bool
  data : List ℤ
deriving DecidableEq, Inhabited, Repr

/-- The fields of OpenJPEG `opj_image_t` read by benchmark.c. -/
structure OpjImage where
  color_space : ℤ
  icc_profile_len : ℤ
  x0 : ℤ
  x1 : ℤ
  y0 : ℤ
  y1 : ℤ
  comps : List OpjComp
deriving DecidableEq, Inhabited, Repr

/-- `numcomps`: the number of components of an image. -/
def OpjImage.numcomps (i : OpjImage) : ℕ :=
  i.comps.length

/-- The `quality_benchmark_info` structure of f2j.h: one flag per metric,
an aggregate flag and the residual flag. -/
structure QualityBenchmarkInfo where
  meanSquaredError : Bool
  rootMeanSquaredError : Bool
  peakSignalToNoiseRatio : Bool
  meanAbsoluteError : Bool
  fidelity : Bool
  maximumAbsoluteDistortion : Bool
  squaredError : Bool
  absoluteError : Bool
  squaredIntensitySum : Bool
  performQualityBenchmarking : Bool
  writeResidual : Bool
deriving DecidableEq, Inhabited, Repr

/-- The environment of one `performQualityBenchmarking` call: the outcomes of
the external operations it performs (null checks on its pointer arguments,
`readJ2K`, the two `malloc` families for the residual image, and
`createJPEG2000Image` for the residual). -/
structure QBEnv where
  imageNull : Bool
  fileNull : Bool
  readOk : Bool
  allocCompsOk : Bool
  allocDataOk : List Bool
  encodeOk : Bool
deriving DecidableEq, Inhabited, Repr

/-- C 32-bit signed `int` wrap-around (the behaviour on the x86/x86_64
platforms the source assumes). -/
def wrap32 (x : ℤ) : ℤ :=
  (x + 2 ^ 31) % 2 ^ 32 - 2 ^ 31

/-- Conversion of a C `int` value to `unsigned long long` (reduction
mod 2^64). -/
def u64 (x : ℤ) : ℕ :=
  (x % 2 ^ 64).toNat

/-- The summand `(compUC.data[jj]-compC.data[jj])*(compUC.data[jj]-compC.data[jj])`
of benchmark.c, computed, as in the source, in C `int` arithmetic. -/
def squareTerm (a b : ℤ) : ℤ :=
  wrap32 (wrap32 (a - b) * wrap32 (a - b))

/-- State of the per-pixel comparison loop of `performQualityBenchmarking`:
the `squaredError` accumulator (an `unsigned long long`), the
`comparisonSuccessful` flag, the residual data written so far and the number
of residual clamping diagnostics. -/
structure CompState where
  squaredError : ℕ
  comparisonSuccessful : Bool
  residual : List ℤ
  clampEvents : ℕ
deriving DecidableEq, Repr

/-- One iteration of the pixel loop of `performQualityBenchmarking`
(benchmark.c lines 340-362): accumulate the squared difference into the
64-bit unsigned accumulator, write the clamped residual value, and detect
overflow exactly when the accumulator decreased. -/
def compStep (resMin resMax : ℤ) (s : CompState) (a b : ℤ) : CompState :=
  { squaredError := (s.squaredError + u64 (squareTerm a b)) % 2 ^ 64
  , comparisonSuccessful := s.comparisonSuccessful &&
      !decide ((s.squaredError + u64 (squareTerm a b)) % 2 ^ 64 < s.squaredError)
  , residual := s.residual ++
      [if wrap32 (a - b) < resMin then resMin
       else if resMax < wrap32 (a - b) then resMax
       else wrap32 (a - b)]
  , clampEvents := s.clampEvents +
      (if wrap32 (a - b) < resMin ∨ resMax < wrap32 (a - b) then 1 else 0) }

/-- The pixel loop of `performQualityBenchmarking` run for `pixels`
iterations from the initial state (`squaredError = 0`,
`comparisonSuccessful = true`). -/
def pixelLoop (resMin resMax : ℤ) (ucData cData : List ℤ) (pixels : ℕ) :
    CompState :=
  (List.range pixels).foldl
    (fun s jj => compStep resMin resMax s (ucData.getD jj 0) (cData.getD jj 0))
    ⟨0, true, [], 0⟩

/-- `maxPixValue` of benchmark.c: 65535 when the compressed component
precision is 16, 255 when it is 8, otherwise `2^prec - 1` computed from the
uncompressed component precision (as in the source). -/
def maxPixValueOf (precC precUC : ℕ) : ℤ :=
  if precC = 16 then 65535
  else if precC = 8 then 255
  else 2 ^ precUC - 1

/-- The metric line printed for a successfully compared component:
the squared-error sum, the pixel count, and whether the PSNR slot holds a
number (`true`) or the `NO-PSNR` sentinel (`false`).  MSE and RMSE, which
are always printed, are determined by the first two fields. -/
structure MetricLine where
  squaredError : ℕ
  pixels : ℕ
  psnrNumeric : Bool
deriving DecidableEq, Repr

/-- `resMax` of benchmark.c: `(maxPixValue + 1) / 2 - 1`. -/
def resMaxOf (maxPixValue : ℤ) : ℤ :=
  (maxPixValue + 1) / 2 - 1

/-- `resMin` of benchmark.c: `-resMax - 1`. -/
def resMinOf (maxPixValue : ℤ) : ℤ :=
  -resMaxOf maxPixValue - 1

/-- Everything benchmark.c computes for one component. -/
structure ComponentOutcome where
  dimsOk : Bool
  sgndOk : Bool
  pixels : ℕ
  maxPixValue : ℤ
  resMin : ℤ
  resMax : ℤ
  squaredError : ℕ
  comparisonSuccessful : Bool
  residual : List ℤ
  clampEvents : ℕ
  emitted : Option MetricLine
deriving DecidableEq, Repr

/-- The body of the per-component loop of `performQualityBenchmarking`
(after the residual data allocation): compute `pixels`, `maxPixValue` and the
residual bounds, skip the component when the dimensions or the signedness
differ, otherwise run the pixel loop and emit the metric line when the
comparison stayed successful. -/
def componentCompare (compUC compC : OpjComp) : ComponentOutcome :=
  let pixels := compUC.w * compUC.h
  let m := maxPixValueOf compC.prec compUC.prec
  let resMax := resMaxOf m
  let resMin := resMinOf m
  if compUC.w ≠ compC.w ∨ compUC.h ≠ compC.h then
    { dimsOk := false, sgndOk := true, pixels := pixels, maxPixValue := m
    , resMin := resMin, resMax := resMax, squaredError := 0
    , comparisonSuccessful := true, residual := [], clampEvents := 0
    , emitted := none }
  else if compUC.sgnd ≠ compC.sgnd then
    { dimsOk := true, sgndOk := false, pixels := pixels, maxPixValue := m
    , resMin := resMin, resMax := resMax, squaredError := 0
    , comparisonSuccessful := true, residual := [], clampEvents := 0
    , emitted := none }
  else
    let st := pixelLoop resMin resMax compUC.data compC.data pixels
    { dimsOk := true, sgndOk := true, pixels := pixels, maxPixValue := m
    , resMin := resMin, resMax := resMax, squaredError := st.squaredError
    , comparisonSuccessful := st.comparisonSuccessful
    , residual := st.residual, clampEvents := st.clampEvents
    , emitted :=
        if st.comparisonSuccessful then
          some ⟨st.squaredError, pixels, st.squaredError != 0⟩
        else none }

/-- The image-level sanity gate of benchmark.c: the two images are
pixel-comparable unless `x1`, `y1` or the number of components differ
(`x0`, `y0`, colour space and ICC profile mismatches only produce
diagnostics). -/
def imagesComparable (image compressedImage : OpjImage) : Bool :=
  !(compressedImage.x1 != image.x1) && !(compressedImage.y1 != image.y1) &&
    !(compressedImage.numcomps != image.numcomps)

/-- The per-component loop with the residual data allocation: component `ii`
first allocates its residual buffer (failure aborts the whole call, which is
`none` here), then is compared. -/
def processComponents (allocDataOk : List Bool) (image compressedImage : OpjImage) :
    Option (List ComponentOutcome) :=
  (List.range image.numcomps).foldl
    (fun acc ii => acc.bind fun outs =>
      if allocDataOk.getD ii true then
        some (outs ++ [componentCompare (image.comps.getD ii default)
          (compressedImage.comps.getD ii default)])
      else none)
    (some [])

/-- The outcomes of all components when every allocation succeeds. -/
def allOutcomes (image compressedImage : OpjImage) : List ComponentOutcome :=
  (List.range image.numcomps).map fun ii =>
    componentCompare (image.comps.getD ii default)
      (compressedImage.comps.getD ii default)

/-- `canWriteResidual` of benchmark.c: true as long as no component had a
dimension or signedness mismatch. -/
def canWriteResidual (outs : List ComponentOutcome) : Bool :=
  outs.all fun o => o.dimsOk && o.sgndOk

/-- The observable result of one `performQualityBenchmarking` call. -/
structure QBResult where
  retcode : ℕ
  pixelsComparable : Bool
  notComparableDiagnostic : Bool
  outcomes : List ComponentOutcome
  residualWritten : Bool
deriving DecidableEq, Repr

/-- `performQualityBenchmarking` of benchmark.c.  Returns 1 on a null
argument, on `readJ2K` failure, on an allocation failure for the residual
image, or on a residual encode failure; otherwise 0 — also when the images
are not pixel-comparable (diagnostic only) and when the accumulator
overflowed.  The `quality_benchmark_info` parameter is, as in the source,
never read ("Currently a dummy variable"). -/
def performQualityBenchmarking (env : QBEnv) (image compressedImage : OpjImage)
    (_parameters : QualityBenchmarkInfo) : QBResult :=
  if env.imageNull || env.fileNull then
    ⟨1, true, false, [], false⟩
  else if !env.readOk then
    ⟨1, true, false, [], false⟩
  else if imagesComparable image compressedImage then
    if !env.allocCompsOk then
      ⟨1, true, false, [], false⟩
    else
      match processComponents env.allocDataOk image compressedImage with
      | none => ⟨1, true, false, [], false⟩
      | some outs =>
        if canWriteResidual outs then
          if !env.encodeOk then ⟨1, true, false, outs, false⟩
          else ⟨0, true, false, outs, true⟩
        else ⟨0, true, false, outs, false⟩
  else
    ⟨0, false, true, [], false⟩

/-- The PSNR value printed for an emitted metric line: the number
`10*log10(maxPixValue^2/mse)` with `mse = squaredError/pixels` when the
squared error was nonzero, nothing (the `NO-PSNR` sentinel) otherwise. -/
noncomputable def psnrPrinted (maxPixValue : ℤ) (l : MetricLine) : Option ℝ :=
  if l.psnrNumeric then
    some (10 * Real.logb 10
      (((maxPixValue : ℝ) * (maxPixValue : ℝ)) / ((l.squaredError : ℝ) / (l.pixels : ℝ))))
  else none

/-- The C cast `(int) x` of a `double`: truncation toward zero. -/
noncomputable def ctrunc (x : ℝ) : ℤ :=
  if x < 0 then -⌊-x⌋ else ⌊x⌋

/-- The `ADD_GAUSSIAN_NOISE_TO_RAW_VALUES` macro of f2j.c: when the
percentage noise deviation is not (essentially) zero, add
`(datamax-datamin) * noiseVal` to the raw value and clamp it back into
`[datamin,datamax]` (two sequential `if`s, as in the macro). -/
noncomputable def addRawNoise (pctNoise : Bool) (datamin datamax noiseVal s : ℝ) : ℝ :=
  if pctNoise then
    let s1 := s + (datamax - datamin) * noiseVal
    let s2 := if datamax < s1 then datamax else s1
    if s2 < datamin then datamin else s2
  else s

/-- `absMin` of the LOG branch of `floatDoubleTransform`. -/
noncomputable def logAbsMin (datamin : ℝ) : ℝ :=
  if datamin < 0 then -datamin
  else if datamin ≤ 0 then 0.000001
  else datamin

/-- `zero` of the LOG branch of `floatDoubleTransform`. -/
noncomputable def logZero (datamin : ℝ) : ℝ :=
  if datamin < 0 then 2 * -datamin
  else if datamin ≤ 0 then 0.000001
  else 0

/-- The divisor `log((datamax+zero)/absMin)` of the LOG scale factor. -/
noncomputable def logDenom (datamin datamax : ℝ) : ℝ :=
  Real.log ((datamax + logZero datamin) / logAbsMin datamin)

/-- `scale` of the LOG branch: `65535.0/log((datamax+zero)/absMin)`. -/
noncomputable def logScale (datamin datamax : ℝ) : ℝ :=
  65535 / logDenom datamin datamax

/-- `zero` of the LINEAR branch of `floatDoubleTransform`. -/
noncomputable def linearZero (datamin : ℝ) : ℝ :=
  if datamin < 0 then -datamin else 0

/-- The divisor `datamax+zero` of the LINEAR scale factor. -/
noncomputable def linearDenom (datamin datamax : ℝ) : ℝ :=
  datamax + linearZero datamin

/-- `scale` of the LINEAR branch: `65535.0/(datamax+zero)`. -/
noncomputable def linearScale (datamin datamax : ℝ) : ℝ :=
  65535 / linearDenom datamin datamax

/-- `scale` of the SQRT branch: 0 when `datamin == datamax`, otherwise
`65535.0/sqrt(datamax-datamin)`. -/
noncomputable def sqrtScale (datamin datamax : ℝ) : ℝ :=
  if datamin ≠ datamax then 65535 / Real.sqrt (datamax - datamin) else 0

/-- `scale` of the SQUARED branch: 0 when `datamin == datamax`, otherwise
`65535.0/((datamax-datamin)*(datamax-datamin))`. -/
noncomputable def squaredScale (datamin datamax : ℝ) : ℝ :=
  if datamin ≠ datamax then 65535 / ((datamax - datamin) * (datamax - datamin)) else 0

/-- `scale` of the POWER branch: 0 when `datamin == datamax`, otherwise
`65535.0/(exp(datamax)-exp(datamin))`. -/
noncomputable def powerScale (datamin datamax : ℝ) : ℝ :=
  if datamin ≠ datamax then 65535 / (Real.exp datamax - Real.exp datamin) else 0

/-- `offset` of the POWER branch: 0 when `datamin == datamax`, otherwise
`65535.0*exp(datamin)/(exp(datamin)-exp(datamax))`. -/
noncomputable def powerOffset (datamin datamax : ℝ) : ℝ :=
  if datamin ≠ datamax then
    65535 * Real.exp datamin / (Real.exp datamin - Real.exp datamax)
  else 0

/-- One pixel of `floatDoubleTransform`: optional raw-value noise, the
family formula, the `(int)` cast, `FIT_TO_RANGE(0,65535,·)`, the integer
noise step (add noise sample `gv`, then clamp again) and finally the
`65535 - value` inversion for the NEGATIVE kinds. -/
noncomputable def floatPixel (pctNoise : Bool) (t : Transform)
    (datamin datamax fnv : ℝ) (gv : ℤ) (sample : ℝ) : ℤ :=
  let s := addRawNoise pctNoise datamin datamax fnv sample
  if t = Transform.LOG ∨ t = Transform.NEGATIVE_LOG then
    let v := fitToRange 0 65535 (fitToRange 0 65535
      (ctrunc (logScale datamin datamax *
        Real.log ((s + logZero datamin) / logAbsMin datamin))) + gv)
    if t = Transform.NEGATIVE_LOG then 65535 - v else v
  else if t = Transform.LINEAR ∨ t = Transform.NEGATIVE_LINEAR then
    let v := fitToRange 0 65535 (fitToRange 0 65535
      (ctrunc (s * linearScale datamin datamax)) + gv)
    if t = Transform.NEGATIVE_LINEAR then 65535 - v else v
  else if t = Transform.SQRT ∨ t = Transform.NEGATIVE_SQRT then
    let v := fitToRange 0 65535 (fitToRange 0 65535
      (ctrunc (sqrtScale datamin datamax * Real.sqrt (s - datamin))) + gv)
    if t = Transform.NEGATIVE_SQRT then 65535 - v else v
  else if t = Transform.SQUARED ∨ t = Transform.NEGATIVE_SQUARED then
    let v := fitToRange 0 65535 (fitToRange 0 65535
      (ctrunc (squaredScale datamin datamax * ((s - datamin) * (s - datamin)))) + gv)
    if t = Transform.NEGATIVE_SQUARED then 65535 - v else v
  else if t = Transform.POWER ∨ t = Transform.NEGATIVE_POWER then
    let v := fitToRange 0 65535 (fitToRange 0 65535
      (ctrunc (powerScale datamin datamax * Real.exp s + powerOffset datamin datamax)) + gv)
    if t = Transform.NEGATIVE_POWER then 65535 - v else v
  else 0

/-- `floatDoubleTransform` of f2j.c (32/64-bit floating point sources,
widened to `double` by the reader): the five formula families with their
NEGATIVE variants, vertical flip, and the noise hooks of the noise build
(`fn`/`g` are the per-iteration noise samples, 0 in the reference program
unless noise options are given).  Any other transform is rejected. -/
noncomputable def floatDoubleTransform (pctNoise : Bool) (fn : ℕ → ℝ) (g : ℕ → ℤ)
    (rawData : List ℝ) (t : Transform) (len : ℕ) (datamin datamax : ℝ)
    (width : ℕ) : Option (List ℤ) :=
  if len < 1 then none
  else if t = Transform.LOG ∨ t = Transform.NEGATIVE_LOG ∨
      t = Transform.LINEAR ∨ t = Transform.NEGATIVE_LINEAR ∨
      t = Transform.SQRT ∨ t = Transform.NEGATIVE_SQRT ∨
      t = Transform.SQUARED ∨ t = Transform.NEGATIVE_SQUARED ∨
      t = Transform.POWER ∨ t = Transform.NEGATIVE_POWER then
    some ((List.range len).map fun ii =>
      floatPixel pctNoise t datamin datamax (fn ii) (g ii)
        (rawData.getD (flipIndex width len ii).toNat 0))
  else none

theorem fitToRange_mem (lo hi v : ℤ) (h : lo ≤ hi) :
    lo ≤ fitToRange lo hi v ∧ fitToRange lo hi v ≤ hi := by
  unfold fitToRange
  split_ifs <;> omega

theorem outputInRange_map (lo hi : ℤ) (f : ℕ → ℤ) (n : ℕ)
    (h : ∀ ii, lo ≤ f ii ∧ f ii ≤ hi) :
    ∀ x ∈ (List.range n).map f, lo ≤ x ∧ x ≤ hi := by
  intro x hx
  rcases List.mem_map.1 hx with ⟨ii, _, rfl⟩
  exact h ii

theorem floatPixel_mem (pctNoise : Bool) (t : Transform) (dmin dmax fnv : ℝ)
    (gv : ℤ) (s : ℝ) :
    0 ≤ floatPixel pctNoise t dmin dmax fnv gv s ∧
      floatPixel pctNoise t dmin dmax fnv gv s ≤ 65535 := by
  have hb : ∀ x gv : ℤ, 0 ≤ fitToRange 0 65535 (fitToRange 0 65535 x + gv) ∧
      fitToRange 0 65535 (fitToRange 0 65535 x + gv) ≤ 65535 :=
    fun x gv => fitToRange_mem 0 65535 _ (by norm_num)
  have hbneg : ∀ x gv : ℤ,
      0 ≤ 65535 - fitToRange 0 65535 (fitToRange 0 65535 x + gv) ∧
        65535 - fitToRange 0 65535 (fitToRange 0 65535 x + gv) ≤ 65535 := by
    intro x gv
    have h := hb x gv
    omega
  cases t <;>
    simp only [floatPixel, reduceCtorEq, or_self, or_false, false_or, true_or,
      or_true, if_true, if_false, ite_true, ite_false, eq_self_iff_true] <;>
    first
      | exact hb _ _
      | exact hbneg _ _
      | norm_num

/-- Claim C1: for every supported (source type, transform) combination and
all inputs (and all noise samples), every element of a successfully produced
intensity buffer lies in `[0, maxIntensity]` — 255 for the byte-typed
sources, 65535 otherwise. -/
theorem clamp_invariant (g : ℕ → ℤ) (rawData : List ℤ) (t : Transform)
    (len width : ℕ) :
    outputInRange 0 65535 (shortImgTransform g rawData t len width) ∧
    outputInRange 0 65535 (uShortImgTransform g rawData t len width) ∧
    outputInRange 0 255 (byteImgTransform g rawData t len width) ∧
    outputInRange 0 255 (sByteImgTransform g rawData t len width) ∧
    ∀ (pctNoise : Bool) (fn : ℕ → ℝ) (rawR : List ℝ) (dmin dmax : ℝ),
      outputInRange 0 65535
        (floatDoubleTransform pctNoise fn g rawR t len dmin dmax width) := by
  refine ⟨?_, ?_, ?_, ?_, ?_⟩
  · intro l hl
    unfold shortImgTransform at hl
    split_ifs at hl <;> simp only [Option.some.injEq, reduceCtorEq] at hl
    all_goals subst hl
    all_goals
      exact outputInRange_map _ _ _ _ fun ii => fitToRange_mem _ _ _ (by norm_num)
  · intro l hl
    unfold uShortImgTransform at hl
    split_ifs at hl <;> simp only [Option.some.injEq, reduceCtorEq] at hl
    all_goals subst hl
    all_goals
      exact outputInRange_map _ _ _ _ fun ii => fitToRange_mem _ _ _ (by norm_num)
  · intro l hl
    unfold byteImgTransform at hl
    split_ifs at hl <;> simp only [Option.some.injEq, reduceCtorEq] at hl
    all_goals subst hl
    all_goals
      exact outputInRange_map _ _ _ _ fun ii => fitToRange_mem _ _ _ (by norm_num)
  · intro l hl
    unfold sByteImgTransform at hl
    split_ifs at hl <;> simp only [Option.some.injEq, reduceCtorEq] at hl
    all_goals subst hl
    all_goals
      exact outputInRange_map _ _ _ _ fun ii => fitToRange_mem _ _ _ (by norm_num)
  · intro pctNoise fn rawR dmin dmax l hl
    unfold floatDoubleTransform at hl
    split_ifs at hl <;> simp only [Option.some.injEq, reduceCtorEq] at hl
    all_goals subst hl
    all_goals
      exact outputInRange_map _ _ _ _ fun ii => floatPixel_mem _ _ _ _ _ _ _

/-- Witness for the clamp invariant: `sByteImgTransform` on the one-sample
buffer `[5]` with RAW yields `[133]`, and that element lies in `[0,255]`. -/
theorem clamp_invariant_witness : ∀ x ∈ [(133 : ℤ)], 0 ≤ x ∧ x ≤ 255 :=
  (clamp_invariant (fun _ => 0) [5] Transform.RAW 1 1).2.2.2.1 [133] (by decide)

/-- Claim C2 (code bug): `sByteImgTransform` with NEGATIVE_RAW computes
`127 + v` instead of the photometric inversion `255 - (128 + v) = 127 - v`:
on the sample 1 it yields 128, while `maxIntensity - RAW` yields
`255 - 129 = 126`. -/
theorem sByte_negative_raw_not_inversion :
    sByteImgTransform (fun _ => 0) [1] Transform.NEGATIVE_RAW 1 1 = some [128] ∧
    sByteImgTransform (fun _ => 0) [1] Transform.RAW 1 1 = some [129] ∧
    ¬((128 : ℤ) = 255 - 129) := by
  decide

theorem flipState_closed (width height : ℕ) (hw : 0 < width) (ii : ℕ) :
    flipState width (width * height) ii =
      (((height : ℤ) - 1 - (ii / width : ℕ)) * width + (ii % width : ℕ),
        ii % width) := by
  induction ii with
  | zero =>
      simp only [flipState, Nat.zero_div, Nat.zero_mod, Nat.cast_zero,
        Prod.mk.injEq, and_true]
      push_cast
      ring
  | succ n ih =>
      have hr : n % width < width := Nat.mod_lt n hw
      have hdm : width * (n / width) + n % width = n := Nat.div_add_mod n width
      rw [show flipState width (width * height) (n + 1) =
        updateFlippingIndex width (flipState width (width * height) n) from rfl,
        ih]
      unfold updateFlippingIndex
      dsimp only
      by_cases h : width ≤ n % width + 1
      · have hr2 : n % width = width - 1 := by omega
        have hn1 : n + 1 = width * (n / width + 1) := by
          rw [Nat.mul_add, Nat.mul_one]
          omega
        have hd : (n + 1) / width = n / width + 1 := by
          rw [hn1, Nat.mul_div_cancel_left _ hw]
        have hm : (n + 1) % width = 0 := by
          rw [hn1, Nat.mul_mod_right]
        have hc : ((n % width : ℕ) : ℤ) = (width : ℤ) - 1 := by omega
        rw [if_pos h, hd, hm, Prod.mk.injEq]
        refine ⟨?_, rfl⟩
        rw [hc]
        push_cast
        ring
      · have h2 : n % width + 1 < width := by omega
        have hn1 : n + 1 = (n % width + 1) + width * (n / width) := by omega
        have hd : (n + 1) / width = n / width := by
          rw [hn1, Nat.add_mul_div_left _ _ hw, Nat.div_eq_of_lt h2,
            Nat.zero_add]
        have hm : (n + 1) % width = n % width + 1 := by
          rw [hn1, Nat.add_mul_mod_self_left, Nat.mod_eq_of_lt h2]
        rw [if_neg h, hd, hm, Prod.mk.injEq]
        refine ⟨?_, rfl⟩
        push_cast
        ring

theorem flipIndex_closed (width height : ℕ) (hw : 0 < width) (r c : ℕ)
    (hc : c < width) :
    flipIndex width (width * height) (r * width + c) =
      ((height : ℤ) - 1 - r) * width + c := by
  unfold flipIndex
  rw [flipState_closed width height hw]
  have hrw : r * width + c = c + width * r := by ring
  have h1 : (r * width + c) / width = r := by
    rw [hrw, Nat.add_mul_div_left _ _ hw, Nat.div_eq_of_lt hc, Nat.zero_add]
  have h2 : (r * width + c) % width = c := by
    rw [hrw, Nat.add_mul_mod_self_left, Nat.mod_eq_of_lt hc]
  rw [h1, h2]

theorem getD_map_range (f : ℕ → ℤ) (n i : ℕ) (h : i < n) :
    ((List.range n).map f).getD i 0 = f i := by
  rw [List.getD_eq_getElem?_getD, List.getElem?_map, List.getElem?_range h]
  rfl

/-- Claim C4: a successful `shortImgTransform` writes the vertically flipped
image: output position `(r, c)` holds the transformed input sample at
position `(height - 1 - r, c)` (so for a one-row plane the flip is the
identity). -/
theorem shortImgTransform_vertical_flip (g : ℕ → ℤ) (rawData : List ℤ)
    (t : Transform) (width height : ℕ) (out : List ℤ) (hw : 0 < width)
    (hsucc : shortImgTransform g rawData t (width * height) width = some out)
    (r c : ℕ) (hr : r < height) (hc : c < width) :
    out.getD (r * width + c) 0 =
      shortPixelMap t (g (r * width + c))
        (rawData.getD ((height - 1 - r) * width + c) 0) := by
  have hlt : r * width + c < width * height := by
    calc r * width + c < r * width + width := by omega
    _ = (r + 1) * width := by ring
    _ ≤ height * width := Nat.mul_le_mul_right _ (by omega)
    _ = width * height := Nat.mul_comm _ _
  have hidx : (flipIndex width (width * height) (r * width + c)).toNat =
      (height - 1 - r) * width + c := by
    rw [flipIndex_closed width height hw r c hc]
    have h1 : (((height - 1 - r) : ℕ) : ℤ) = (height : ℤ) - 1 - r := by omega
    have hcast : ((height : ℤ) - 1 - r) * width + c =
        (((height - 1 - r) * width + c : ℕ) : ℤ) := by
      push_cast
      rw [h1]
    rw [hcast, Int.toNat_natCast]
  unfold shortImgTransform at hsucc
  split_ifs at hsucc with h1 h2 h3 <;>
    simp only [Option.some.injEq, reduceCtorEq] at hsucc
  · subst hsucc
    rw [getD_map_range _ _ _ hlt, hidx]
    unfold shortPixelMap
    rw [if_pos h2]
  · subst hsucc
    rw [getD_map_range _ _ _ hlt, hidx]
    unfold shortPixelMap
    rw [if_neg h2, if_pos h3]

/-- Witness for the vertical flip: a 2×2 plane `[10,20,30,40]` under RAW
yields `[32798, 32808, 32778, 32788]` (bottom row first), and position
`(0,0)` of the output is the transformed input sample at `(1,0)`. -/
theorem shortImgTransform_vertical_flip_witness :
    shortImgTransform (fun _ => 0) [10, 20, 30, 40] Transform.RAW (2 * 2) 2 =
      some [32798, 32808, 32778, 32788] ∧
    ([32798, 32808, 32778, 32788] : List ℤ).getD (0 * 2 + 0) 0 =
      shortPixelMap Transform.RAW 0
        (([10, 20, 30, 40] : List ℤ).getD ((2 - 1 - 0) * 2 + 0) 0) :=
  ⟨by decide,
    shortImgTransform_vertical_flip (fun _ => 0) [10, 20, 30, 40]
      Transform.RAW 2 2 [32798, 32808, 32778, 32788] (by decide) (by decide)
      0 0 (by decide) (by decide)⟩

/-- Claim C6 (code bug): the squared difference is computed in 32-bit C
`int` arithmetic, not in a widened 64-bit domain: for the pixel values
65535 and 0 the source term wraps to `-131071` although the exact 64-bit
square is 4294836225, and one accumulator step therefore adds
`2^64 - 131071` instead. -/
theorem square_computed_in_int32 :
    squareTerm 65535 0 = -131071 ∧
    ((65535 : ℤ) - 0) * ((65535 : ℤ) - 0) = 4294836225 ∧
    (compStep (-32768) 32767 ⟨0, true, [], 0⟩ 65535 0).squaredError =
      2 ^ 64 - 131071 := by
  decide

theorem pixelLoop_zero (resMin resMax : ℤ) (uc c : List ℤ) :
    pixelLoop resMin resMax uc c 0 = ⟨0, true, [], 0⟩ :=
  rfl

theorem pixelLoop_succ (resMin resMax : ℤ) (uc c : List ℤ) (n : ℕ) :
    pixelLoop resMin resMax uc c (n + 1) =
      compStep resMin resMax (pixelLoop resMin resMax uc c n)
        (uc.getD n 0) (c.getD n 0) := by
  unfold pixelLoop
  rw [List.range_succ, List.foldl_append]
  rfl

theorem pixelLoop_residual_length (resMin resMax : ℤ) (uc c : List ℤ) (n : ℕ) :
    (pixelLoop resMin resMax uc c n).residual.length = n := by
  induction n with
  | zero => rfl
  | succ n ih =>
      rw [pixelLoop_succ]
      unfold compStep
      simp [ih]

theorem pixelLoop_ok_iff (resMin resMax : ℤ) (uc c : List ℤ) (n : ℕ) :
    (pixelLoop resMin resMax uc c n).comparisonSuccessful = false ↔
      ∃ j < n, (pixelLoop resMin resMax uc c (j + 1)).squaredError <
        (pixelLoop resMin resMax uc c j).squaredError := by
  induction n with
  | zero => simp [pixelLoop_zero]
  | succ n ih =>
      have hok : (pixelLoop resMin resMax uc c (n + 1)).comparisonSuccessful =
          ((pixelLoop resMin resMax uc c n).comparisonSuccessful &&
            !decide (((pixelLoop resMin resMax uc c n).squaredError +
                u64 (squareTerm (uc.getD n 0) (c.getD n 0))) % 2 ^ 64 <
              (pixelLoop resMin resMax uc c n).squaredError)) := by
        rw [pixelLoop_succ]
        rfl
      have hnew : (pixelLoop resMin resMax uc c (n + 1)).squaredError =
          ((pixelLoop resMin resMax uc c n).squaredError +
            u64 (squareTerm (uc.getD n 0) (c.getD n 0))) % 2 ^ 64 := by
        rw [pixelLoop_succ]
        rfl
      by_cases hso : (pixelLoop resMin resMax uc c n).comparisonSuccessful = false
      · have hR : ∃ j < n + 1,
            (pixelLoop resMin resMax uc c (j + 1)).squaredError <
              (pixelLoop resMin resMax uc c j).squaredError := by
          rcases ih.mp hso with ⟨j, hj, hlt⟩
          exact ⟨j, Nat.lt_succ_of_lt hj, hlt⟩
        simp [hok, hso, hR]
      · have hst : (pixelLoop resMin resMax uc c n).comparisonSuccessful = true := by
          cases h : (pixelLoop resMin resMax uc c n).comparisonSuccessful
          · exact absurd h hso
          · rfl
        have hni : ¬∃ j, j < n ∧
            (pixelLoop resMin resMax uc c (j + 1)).squaredError <
              (pixelLoop resMin resMax uc c j).squaredError := by
          rintro ⟨j, hj, hlt⟩
          exact hso (ih.mpr ⟨j, hj, hlt⟩)
        constructor
        · intro h
          rw [hok, hst, Bool.true_and] at h
          refine ⟨n, Nat.lt_succ_self n, ?_⟩
          rw [hnew]
          by_contra hc
          rw [decide_eq_false hc] at h
          simp at h
        · rintro ⟨j, hj, hlt⟩
          have hj' : j = n := by
            rcases Nat.lt_succ_iff_lt_or_eq.mp hj with h' | h'
            · exact absurd ⟨j, h', hlt⟩ hni
            · exact h'
          subst hj'
          rw [hnew] at hlt
          rw [hok, hst, Bool.true_and, decide_eq_true hlt]
          rfl

theorem componentCompare_run (compUC compC : OpjComp)
    (hw : compUC.w = compC.w) (hh : compUC.h = compC.h)
    (hs : compUC.sgnd = compC.sgnd) :
    componentCompare compUC compC =
      { dimsOk := true, sgndOk := true, pixels := compUC.w * compUC.h
      , maxPixValue := maxPixValueOf compC.prec compUC.prec
      , resMin := resMinOf (maxPixValueOf compC.prec compUC.prec)
      , resMax := resMaxOf (maxPixValueOf compC.prec compUC.prec)
      , squaredError := (pixelLoop (resMinOf (maxPixValueOf compC.prec compUC.prec))
          (resMaxOf (maxPixValueOf compC.prec compUC.prec)) compUC.data compC.data
          (compUC.w * compUC.h)).squaredError
      , comparisonSuccessful := (pixelLoop (resMinOf (maxPixValueOf compC.prec compUC.prec))
          (resMaxOf (maxPixValueOf compC.prec compUC.prec)) compUC.data compC.data
          (compUC.w * compUC.h)).comparisonSuccessful
      , residual := (pixelLoop (resMinOf (maxPixValueOf compC.prec compUC.prec))
          (resMaxOf (maxPixValueOf compC.prec compUC.prec)) compUC.data compC.data
          (compUC.w * compUC.h)).residual
      , clampEvents := (pixelLoop (resMinOf (maxPixValueOf compC.prec compUC.prec))
          (resMaxOf (maxPixValueOf compC.prec compUC.prec)) compUC.data compC.data
          (compUC.w * compUC.h)).clampEvents
      , emitted :=
          if (pixelLoop (resMinOf (maxPixValueOf compC.prec compUC.prec))
              (resMaxOf (maxPixValueOf compC.prec compUC.prec)) compUC.data compC.data
              (compUC.w * compUC.h)).comparisonSuccessful then
            some ⟨(pixelLoop (resMinOf (maxPixValueOf compC.prec compUC.prec))
                (resMaxOf (maxPixValueOf compC.prec compUC.prec)) compUC.data compC.data
                (compUC.w * compUC.h)).squaredError, compUC.w * compUC.h,
              (pixelLoop (resMinOf (maxPixValueOf compC.prec compUC.prec))
                (resMaxOf (maxPixValueOf compC.prec compUC.prec)) compUC.data compC.data
                (compUC.w * compUC.h)).squaredError != 0⟩
          else none } := by
  have h1 : ¬(compUC.w ≠ compC.w ∨ compUC.h ≠ compC.h) := by simp [hw, hh]
  have h2 : ¬(compUC.sgnd ≠ compC.sgnd) := by simp [hs]
  unfold componentCompare
  rw [if_neg h1, if_neg h2]

/-- Claim C5 (amended): in the per-component comparison, overflow is flagged
exactly when some accumulator step decreased the 64-bit accumulator, and on
detection the comparison is marked failed and no metric line is emitted —
but the per-pixel loop is not aborted: it always runs through all `pixels`
iterations (the residual holds one entry per pixel). -/
theorem overflow_detection_semantics (compUC compC : OpjComp)
    (hw : compUC.w = compC.w) (hh : compUC.h = compC.h)
    (hs : compUC.sgnd = compC.sgnd) :
    ((componentCompare compUC compC).comparisonSuccessful = false ↔
      ∃ j < compUC.w * compUC.h,
        (pixelLoop (componentCompare compUC compC).resMin
          (componentCompare compUC compC).resMax compUC.data compC.data
          (j + 1)).squaredError <
        (pixelLoop (componentCompare compUC compC).resMin
          (componentCompare compUC compC).resMax compUC.data compC.data
          j).squaredError) ∧
    (componentCompare compUC compC).residual.length = compUC.w * compUC.h ∧
    ((componentCompare compUC compC).comparisonSuccessful = false →
      (componentCompare compUC compC).emitted = none) := by
  rw [componentCompare_run compUC compC hw hh hs]
  refine ⟨?_, ?_, ?_⟩
  · exact pixelLoop_ok_iff _ _ _ _ _
  · exact pixelLoop_residual_length _ _ _ _ _
  · intro h
    dsimp only at h ⊢
    rw [h]
    rfl

/-- Witness for the overflow-detection semantics at a concrete 1×1
component pair (no overflow, so the metric line is emitted). -/
theorem overflow_detection_semantics_witness :
    ((componentCompare ⟨1, 1, 16, false, [5]⟩ ⟨1, 1, 16, false, [3]⟩).comparisonSuccessful = false ↔
      ∃ j < 1 * 1,
        (pixelLoop (componentCompare ⟨1, 1, 16, false, [5]⟩ ⟨1, 1, 16, false, [3]⟩).resMin
          (componentCompare ⟨1, 1, 16, false, [5]⟩ ⟨1, 1, 16, false, [3]⟩).resMax
          [5] [3] (j + 1)).squaredError <
        (pixelLoop (componentCompare ⟨1, 1, 16, false, [5]⟩ ⟨1, 1, 16, false, [3]⟩).resMin
          (componentCompare ⟨1, 1, 16, false, [5]⟩ ⟨1, 1, 16, false, [3]⟩).resMax
          [5] [3] j).squaredError) ∧
    (componentCompare ⟨1, 1, 16, false, [5]⟩ ⟨1, 1, 16, false, [3]⟩).residual.length = 1 * 1 ∧
    ((componentCompare ⟨1, 1, 16, false, [5]⟩ ⟨1, 1, 16, false, [3]⟩).comparisonSuccessful = false →
      (componentCompare ⟨1, 1, 16, false, [5]⟩ ⟨1, 1, 16, false, [3]⟩).emitted = none) :=
  overflow_detection_semantics ⟨1, 1, 16, false, [5]⟩ ⟨1, 1, 16, false, [3]⟩
    rfl rfl rfl

/-- Counterexample to claim C5 as stated: on the 3×1 component pair below,
overflow is detected at pixel 1 (the accumulator drops from 160000 to
28929), yet the loop is not aborted: pixel 2 is still processed (the
residual has three entries and the accumulator ends at 28954); the metric
line is suppressed. -/
theorem overflow_loop_not_aborted :
    (componentCompare ⟨3, 1, 16, false, [400, 65535, 5]⟩
        ⟨3, 1, 16, false, [0, 0, 0]⟩).comparisonSuccessful = false ∧
    (componentCompare ⟨3, 1, 16, false, [400, 65535, 5]⟩
        ⟨3, 1, 16, false, [0, 0, 0]⟩).residual = [400, 32767, 5] ∧
    (componentCompare ⟨3, 1, 16, false, [400, 65535, 5]⟩
        ⟨3, 1, 16, false, [0, 0, 0]⟩).squaredError = 28954 ∧
    (componentCompare ⟨3, 1, 16, false, [400, 65535, 5]⟩
        ⟨3, 1, 16, false, [0, 0, 0]⟩).emitted = none ∧
    (pixelLoop (-32768) 32767 [400, 65535, 5] [0, 0, 0] 2).squaredError = 28929 := by
  decide

theorem bool_ne_true (b : Bool) (h : ¬b = true) : b = false := by
  cases b
  · rfl
  · exact absurd rfl h

theorem processFold_none (d : List Bool) (g : ℕ → ComponentOutcome)
    (l : List ℕ) :
    List.foldl (fun acc ii => acc.bind fun outs =>
      if d.getD ii true then some (outs ++ [g ii]) else none)
      (none : Option (List ComponentOutcome)) l = none := by
  induction l with
  | nil => rfl
  | cons a l ih => exact ih

theorem processFold_some (d : List Bool) (g : ℕ → ComponentOutcome)
    (l : List ℕ) :
    ∀ acc : List ComponentOutcome, (∀ ii ∈ l, d.getD ii true = true) →
      List.foldl (fun acc ii => acc.bind fun outs =>
        if d.getD ii true then some (outs ++ [g ii]) else none)
        (some acc) l = some (acc ++ l.map g) := by
  induction l with
  | nil =>
      intro acc _
      simp
  | cons a l ih =>
      intro acc h
      have ha := h a (List.mem_cons_self a l)
      simp only [List.foldl_cons, Option.some_bind, ha, ite_true]
      rw [ih (acc ++ [g a]) (fun ii hii => h ii (List.mem_cons_of_mem a hii))]
      simp

theorem processFold_none_iff (d : List Bool) (g : ℕ → ComponentOutcome)
    (l : List ℕ) :
    ∀ acc : List ComponentOutcome,
      (List.foldl (fun acc ii => acc.bind fun outs =>
        if d.getD ii true then some (outs ++ [g ii]) else none)
        (some acc) l = none ↔ ∃ ii ∈ l, d.getD ii true = false) := by
  induction l with
  | nil =>
      intro acc
      simp
  | cons a l ih =>
      intro acc
      by_cases ha : d.getD a true = true
      · simp only [List.foldl_cons, Option.some_bind, ha, ite_true]
        rw [ih (acc ++ [g a])]
        constructor
        · rintro ⟨ii, hii, hf⟩
          exact ⟨ii, List.mem_cons_of_mem a hii, hf⟩
        · rintro ⟨ii, hii, hf⟩
          rcases List.mem_cons.mp hii with rfl | hii'
          · rw [ha] at hf
            cases hf
          · exact ⟨ii, hii', hf⟩
      · have ha' : d.getD a true = false := bool_ne_true _ ha
        simp only [List.foldl_cons, Option.some_bind, ha', Bool.false_eq_true,
          if_false, ite_false]
        rw [processFold_none d g l]
        simp only [eq_self_iff_true, true_iff]
        exact ⟨a, List.mem_cons_self a l, ha'⟩

theorem allocDataOk_getD_true (d : List Bool) (h : ∀ b ∈ d, b = true)
    (ii : ℕ) : d.getD ii true = true := by
  induction d generalizing ii with
  | nil => simp
  | cons b d ih =>
      cases ii with
      | zero => exact h b (List.mem_cons_self b d)
      | succ n => exact ih (fun x hx => h x (List.mem_cons_of_mem b hx)) n

theorem processComponents_some (allocDataOk : List Bool)
    (image compressedImage : OpjImage)
    (h : ∀ ii < image.numcomps, allocDataOk.getD ii true = true) :
    processComponents allocDataOk image compressedImage =
      some (allOutcomes image compressedImage) := by
  have hfold := processFold_some allocDataOk
    (fun ii => componentCompare (image.comps.getD ii default)
      (compressedImage.comps.getD ii default))
    (List.range image.numcomps) []
    (fun ii hii => h ii (List.mem_range.mp hii))
  exact hfold

theorem processComponents_none_iff (allocDataOk : List Bool)
    (image compressedImage : OpjImage) :
    processComponents allocDataOk image compressedImage = none ↔
      ∃ ii < image.numcomps, allocDataOk.getD ii true = false := by
  have hfold := processFold_none_iff allocDataOk
    (fun ii => componentCompare (image.comps.getD ii default)
      (compressedImage.comps.getD ii default))
    (List.range image.numcomps) []
  have h2 : (∃ ii ∈ List.range image.numcomps,
      allocDataOk.getD ii true = false) ↔
      ∃ ii < image.numcomps, allocDataOk.getD ii true = false := by
    simp [List.mem_range]
  exact hfold.trans h2

theorem qb_retcode_zero (env : QBEnv) (image compressedImage : OpjImage)
    (params : QualityBenchmarkInfo)
    (h1 : env.imageNull = false) (h2 : env.fileNull = false)
    (h3 : env.readOk = true) (h4 : env.allocCompsOk = true)
    (h5 : ∀ b ∈ env.allocDataOk, b = true) (h6 : env.encodeOk = true) :
    (performQualityBenchmarking env image compressedImage params).retcode = 0 := by
  unfold performQualityBenchmarking
  rw [processComponents_some env.allocDataOk image compressedImage
    (fun ii _ => allocDataOk_getD_true env.allocDataOk h5 ii)]
  by_cases hcmp : imagesComparable image compressedImage = true
  · by_cases hcw : canWriteResidual (allOutcomes image compressedImage) = true
    · simp [h1, h2, h3, h4, h6, hcmp, hcw]
    · simp [h1, h2, h3, h4, hcmp, bool_ne_true _ hcw]
  · simp [h1, h2, h3, bool_ne_true _ hcmp]

/-- Claim C8: for a component whose comparison completed successfully, the
metric line is emitted with a numeric PSNR slot exactly when the
squared-error sum is nonzero; when it is zero the distinguishable `NO-PSNR`
sentinel takes its place; and neither case is an error (a call whose
external operations all succeed returns 0). -/
theorem psnr_emission_iff (compUC compC : OpjComp)
    (hw : compUC.w = compC.w) (hh : compUC.h = compC.h)
    (hs : compUC.sgnd = compC.sgnd)
    (hok : (componentCompare compUC compC).comparisonSuccessful = true) :
    (componentCompare compUC compC).emitted =
      some ⟨(componentCompare compUC compC).squaredError, compUC.w * compUC.h,
        (componentCompare compUC compC).squaredError != 0⟩ ∧
    ((psnrPrinted (componentCompare compUC compC).maxPixValue
        ⟨(componentCompare compUC compC).squaredError, compUC.w * compUC.h,
          (componentCompare compUC compC).squaredError != 0⟩).isSome = true ↔
      (componentCompare compUC compC).squaredError ≠ 0) ∧
    ∀ (env : QBEnv) (image compressedImage : OpjImage)
      (params : QualityBenchmarkInfo),
      env.imageNull = false → env.fileNull = false → env.readOk = true →
      env.allocCompsOk = true → (∀ b ∈ env.allocDataOk, b = true) →
      env.encodeOk = true →
      (performQualityBenchmarking env image compressedImage params).retcode = 0 := by
  refine ⟨?_, ?_, fun env i c p a b c' d e f => qb_retcode_zero env i c p a b c' d e f⟩
  · rw [componentCompare_run compUC compC hw hh hs] at hok ⊢
    dsimp only at hok ⊢
    rw [hok]
    rfl
  · by_cases hz : (componentCompare compUC compC).squaredError = 0
    · simp [psnrPrinted, hz]
    · simp [psnrPrinted, hz, bne_iff_ne]

/-- Witness for the PSNR emission: an identical 1×1 component pair has
squared error 0, so the sentinel line is emitted and no numeric PSNR. -/
theorem psnr_emission_iff_witness :
    ((componentCompare ⟨1, 1, 16, false, [7]⟩ ⟨1, 1, 16, false, [7]⟩).emitted =
      some ⟨(componentCompare ⟨1, 1, 16, false, [7]⟩ ⟨1, 1, 16, false, [7]⟩).squaredError,
        1 * 1,
        (componentCompare ⟨1, 1, 16, false, [7]⟩ ⟨1, 1, 16, false, [7]⟩).squaredError != 0⟩) ∧
    ((psnrPrinted (componentCompare ⟨1, 1, 16, false, [7]⟩ ⟨1, 1, 16, false, [7]⟩).maxPixValue
        ⟨(componentCompare ⟨1, 1, 16, false, [7]⟩ ⟨1, 1, 16, false, [7]⟩).squaredError,
          1 * 1,
          (componentCompare ⟨1, 1, 16, false, [7]⟩ ⟨1, 1, 16, false, [7]⟩).squaredError != 0⟩).isSome = true ↔
      (componentCompare ⟨1, 1, 16, false, [7]⟩ ⟨1, 1, 16, false, [7]⟩).squaredError ≠ 0) ∧
    ∀ (env : QBEnv) (image compressedImage : OpjImage)
      (params : QualityBenchmarkInfo),
      env.imageNull = false → env.fileNull = false → env.readOk = true →
      env.allocCompsOk = true → (∀ b ∈ env.allocDataOk, b = true) →
      env.encodeOk = true →
      (performQualityBenchmarking env image compressedImage params).retcode = 0 :=
  psnr_emission_iff ⟨1, 1, 16, false, [7]⟩ ⟨1, 1, 16, false, [7]⟩ rfl rfl rfl
    (by decide)

/-- Claim C9: when the two images differ in `x1` (width), `y1` (height) or
the number of components, the comparison is declared not pixel-comparable:
the not-comparable diagnostic is emitted, no per-pixel work is done (no
component outcomes), nothing is written, and the call still returns 0. -/
theorem not_comparable_empty_result (env : QBEnv)
    (image compressedImage : OpjImage) (params : QualityBenchmarkInfo)
    (h1 : env.imageNull = false) (h2 : env.fileNull = false)
    (h3 : env.readOk = true)
    (hm : compressedImage.x1 ≠ image.x1 ∨ compressedImage.y1 ≠ image.y1 ∨
      compressedImage.numcomps ≠ image.numcomps) :
    performQualityBenchmarking env image compressedImage params =
      ⟨0, false, true, [], false⟩ := by
  have hcmp : imagesComparable image compressedImage = false := by
    unfold imagesComparable
    rcases hm with h | h | h <;> simp [h]
  unfold performQualityBenchmarking
  simp [h1, h2, h3, hcmp]

/-- Witness for the not-comparable gate: a 4×4 reference against a 2×2
candidate yields the empty result with the diagnostic and return code 0. -/
theorem not_comparable_empty_result_witness :
    performQualityBenchmarking ⟨false, false, true, true, [], true⟩
      ⟨0, 0, 0, 4, 0, 4, [⟨4, 4, 16, false, []⟩]⟩
      ⟨0, 0, 0, 2, 0, 2, [⟨2, 2, 16, false, []⟩]⟩
      ⟨false, false, false, false, false, false, false, false, false, true, false⟩ =
      ⟨0, false, true, [], false⟩ :=
  not_comparable_empty_result _ _ _ _ rfl rfl rfl (Or.inl (by decide))

/-- Claim C10: `performQualityBenchmarking` returns 1 exactly for null
arguments, a read/decode failure, a residual allocation failure, or a
residual encode failure; in every other case — including images that are
not pixel-comparable and comparisons with detected accumulator overflow —
it returns 0 (its return value is always 0 or 1). -/
theorem retcode_characterization (env : QBEnv) (image compressedImage : OpjImage)
    (params : QualityBenchmarkInfo) :
    ((performQualityBenchmarking env image compressedImage params).retcode = 1 ↔
      env.imageNull = true ∨ env.fileNull = true ∨ env.readOk = false ∨
      (imagesComparable image compressedImage = true ∧
        (env.allocCompsOk = false ∨
         (∃ ii < image.numcomps, env.allocDataOk.getD ii true = false) ∨
         ((∀ ii < image.numcomps, env.allocDataOk.getD ii true = true) ∧
          canWriteResidual (allOutcomes image compressedImage) = true ∧
          env.encodeOk = false)))) ∧
    ((performQualityBenchmarking env image compressedImage params).retcode = 0 ∨
     (performQualityBenchmarking env image compressedImage params).retcode = 1) := by
  unfold performQualityBenchmarking
  cases himg : env.imageNull with
  | true => simp
  | false =>
    cases hfile : env.fileNull with
    | true => simp
    | false =>
      cases hread : env.readOk with
      | false => simp
      | true =>
        by_cases hcmp : imagesComparable image compressedImage = true
        · cases halloc : env.allocCompsOk with
          | false => simp [hcmp, halloc]
          | true =>
            by_cases hex : ∃ ii < image.numcomps,
                env.allocDataOk.getD ii true = false
            · have hnone : processComponents env.allocDataOk image
                  compressedImage = none :=
                (processComponents_none_iff _ _ _).mpr hex
              have hex' : ∃ ii < image.numcomps,
                  env.allocDataOk[ii]?.getD true = false := by
                simpa only [List.getD_eq_getElem?_getD] using hex
              rw [hnone]
              simp [hcmp]
              exact Or.inl hex'
            · have hall : ∀ ii < image.numcomps,
                  env.allocDataOk.getD ii true = true := by
                intro ii hii
                by_contra hcon
                exact hex ⟨ii, hii, bool_ne_true _ hcon⟩
              have hall' : ∀ ii < image.numcomps,
                  env.allocDataOk[ii]?.getD true = true := by
                simpa only [List.getD_eq_getElem?_getD] using hall
              rw [processComponents_some _ _ _ hall]
              by_cases hcw : canWriteResidual
                  (allOutcomes image compressedImage) = true
              · cases henc : env.encodeOk with
                | false =>
                    simp [hcmp, hcw]
                    exact Or.inr hall'
                | true =>
                    simp [hcmp, hcw]
                    exact hall'
              · have hcw' := bool_ne_true _ hcw
                simp [hcmp, hcw']
                exact hall'
        · have hcmp' := bool_ne_true _ hcmp
          simp [hcmp']

/-- Counterexample to claim C7 as stated: with only the mean-absolute-error
flag requested, the comparison still accumulates the squared-error sum
(here it ends at 1) and still emits the fixed metric line with a numeric
PSNR slot; no mean-absolute-error value exists anywhere in the output. -/
theorem only_mae_still_accumulates_squared_error :
    ((performQualityBenchmarking ⟨false, false, true, true, [true], true⟩
        ⟨0, 0, 0, 1, 0, 1, [⟨1, 1, 16, false, [1]⟩]⟩
        ⟨0, 0, 0, 1, 0, 1, [⟨1, 1, 16, false, [0]⟩]⟩
        ⟨false, false, false, true, false, false, false, false, false, true,
          false⟩).outcomes.map
      fun o => (o.squaredError, o.emitted)) = [(1, some ⟨1, 1, true⟩)] := by
  decide

/-- Claim C7 (amended): `performQualityBenchmarking` ignores the
`quality_benchmark_info` flags entirely — its result is identical for every
pair of flag settings — and an only-mean-absolute-error request is not an
error (the call below returns 0), although the squared-error sum is still
accumulated and no mean-absolute-error metric is computed. -/
theorem benchmark_ignores_flags :
    (∀ (env : QBEnv) (image compressedImage : OpjImage)
      (p q : QualityBenchmarkInfo),
      performQualityBenchmarking env image compressedImage p =
        performQualityBenchmarking env image compressedImage q) ∧
    (performQualityBenchmarking ⟨false, false, true, true, [true], true⟩
      ⟨0, 0, 0, 1, 0, 1, [⟨1, 1, 16, false, [1]⟩]⟩
      ⟨0, 0, 0, 1, 0, 1, [⟨1, 1, 16, false, [0]⟩]⟩
      ⟨false, false, false, true, false, false, false, false, false, true,
        false⟩).retcode = 0 :=
  ⟨fun _ _ _ _ _ => rfl, by decide⟩

/-- Counterexample to claim C3 as stated: with a degenerate range
`max == min`, the divisor of the LOG scale computation
(`log((datamax+zero)/absMin)`) is `log 1 = 0` — here at
`datamin = datamax = 1` — so `scale = 65535.0/0.0`; the LINEAR scale
divisor `datamax + zero` is 0 at `datamin = datamax = 0`. -/
theorem log_linear_degenerate_div_zero :
    logDenom 1 1 = 0 ∧ linearDenom 0 0 = 0 := by
  constructor
  · unfold logDenom logZero logAbsMin
    norm_num
  · unfold linearDenom linearZero
    norm_num

theorem floatDoubleTransform_const (pc : Bool) (fn : ℕ → ℝ) (g : ℕ → ℤ)
    (raw : List ℝ) (t : Transform) (len width : ℕ) (dmin dmax : ℝ) (c : ℤ)
    (hlen : 1 ≤ len)
    (hsup : t = Transform.LOG ∨ t = Transform.NEGATIVE_LOG ∨
      t = Transform.LINEAR ∨ t = Transform.NEGATIVE_LINEAR ∨
      t = Transform.SQRT ∨ t = Transform.NEGATIVE_SQRT ∨
      t = Transform.SQUARED ∨ t = Transform.NEGATIVE_SQUARED ∨
      t = Transform.POWER ∨ t = Transform.NEGATIVE_POWER)
    (hpix : ∀ (ii : ℕ) (s : ℝ), floatPixel pc t dmin dmax (fn ii) (g ii) s = c) :
    floatDoubleTransform pc fn g raw t len dmin dmax width =
      some (List.replicate len c) := by
  unfold floatDoubleTransform
  rw [if_neg (by omega), if_pos hsup]
  refine congrArg some ?_
  refine List.eq_replicate_iff.mpr ⟨by simp, ?_⟩
  intro b hb
  rcases List.mem_map.1 hb with ⟨ii, _, rfl⟩
  exact hpix ii _

/-- Claim C3 (amended): with a degenerate range `max == min`, the SQRT,
SQUARED and POWER transforms are guarded — scale (and offset) are set to 0,
no division by zero occurs, and the output is the constant buffer 0
(65535 for the NEGATIVE variants).  LOG is not guarded: its scale divisor
is `log 1 = 0` for every degenerate range, and LINEAR's divisor
`datamax + zero` is 0 whenever the degenerate value is ≤ 0. -/
theorem degenerate_range_behavior (m : ℝ) (fn : ℕ → ℝ) (raw : List ℝ)
    (len width : ℕ) (hlen : 1 ≤ len) :
    floatDoubleTransform false fn (fun _ => 0) raw Transform.SQRT
      len m m width = some (List.replicate len 0) ∧
    floatDoubleTransform false fn (fun _ => 0) raw Transform.NEGATIVE_SQRT
      len m m width = some (List.replicate len 65535) ∧
    floatDoubleTransform false fn (fun _ => 0) raw Transform.SQUARED
      len m m width = some (List.replicate len 0) ∧
    floatDoubleTransform false fn (fun _ => 0) raw Transform.NEGATIVE_SQUARED
      len m m width = some (List.replicate len 65535) ∧
    floatDoubleTransform false fn (fun _ => 0) raw Transform.POWER
      len m m width = some (List.replicate len 0) ∧
    floatDoubleTransform false fn (fun _ => 0) raw Transform.NEGATIVE_POWER
      len m m width = some (List.replicate len 65535) ∧
    sqrtScale m m = 0 ∧ squaredScale m m = 0 ∧ powerScale m m = 0 ∧
    powerOffset m m = 0 ∧ logDenom m m = 0 ∧
    (m ≤ 0 → linearDenom m m = 0) := by
  have hsS : sqrtScale m m = 0 := by unfold sqrtScale; simp
  have hsQ : squaredScale m m = 0 := by unfold squaredScale; simp
  have hsP : powerScale m m = 0 := by unfold powerScale; simp
  have hoP : powerOffset m m = 0 := by unfold powerOffset; simp
  have hlog : logDenom m m = 0 := by
    rcases lt_trichotomy m 0 with hm | hm | hm
    · have hne : -m ≠ 0 := neg_ne_zero.mpr (ne_of_lt hm)
      unfold logDenom logZero logAbsMin
      rw [if_pos hm, if_pos hm]
      have h1 : m + 2 * -m = -m := by ring
      rw [h1, div_self hne, Real.log_one]
    · subst hm
      unfold logDenom logZero logAbsMin
      norm_num
    · unfold logDenom logZero logAbsMin
      rw [if_neg (not_lt.mpr (le_of_lt hm)), if_neg (not_le.mpr hm),
        if_neg (not_lt.mpr (le_of_lt hm)), if_neg (not_le.mpr hm),
        add_zero, div_self (ne_of_gt hm), Real.log_one]
  have hlin : m ≤ 0 → linearDenom m m = 0 := by
    intro hle
    rcases lt_or_eq_of_le hle with hm | hm
    · unfold linearDenom linearZero
      rw [if_pos hm]
      ring
    · subst hm
      unfold linearDenom linearZero
      norm_num
  have hpix_sqrt : ∀ (fnv : ℝ) (s : ℝ),
      floatPixel false Transform.SQRT m m fnv 0 s = 0 := by
    intro fnv s
    simp only [floatPixel, addRawNoise, Bool.false_eq_true, reduceCtorEq,
      or_self, or_false, false_or, true_or, or_true, if_true, if_false,
      ite_true, ite_false, hsS, zero_mul, zero_add, add_zero]
    norm_num [ctrunc, fitToRange]
  have hpix_nsqrt : ∀ (fnv : ℝ) (s : ℝ),
      floatPixel false Transform.NEGATIVE_SQRT m m fnv 0 s = 65535 := by
    intro fnv s
    simp only [floatPixel, addRawNoise, Bool.false_eq_true, reduceCtorEq,
      or_self, or_false, false_or, true_or, or_true, if_true, if_false,
      ite_true, ite_false, hsS, zero_mul, zero_add, add_zero]
    norm_num [ctrunc, fitToRange]
  have hpix_sq : ∀ (fnv : ℝ) (s : ℝ),
      floatPixel false Transform.SQUARED m m fnv 0 s = 0 := by
    intro fnv s
    simp only [floatPixel, addRawNoise, Bool.false_eq_true, reduceCtorEq,
      or_self, or_false, false_or, true_or, or_true, if_true, if_false,
      ite_true, ite_false, hsQ, zero_mul, zero_add, add_zero]
    norm_num [ctrunc, fitToRange]
  have hpix_nsq : ∀ (fnv : ℝ) (s : ℝ),
      floatPixel false Transform.NEGATIVE_SQUARED m m fnv 0 s = 65535 := by
    intro fnv s
    simp only [floatPixel, addRawNoise, Bool.false_eq_true, reduceCtorEq,
      or_self, or_false, false_or, true_or, or_true, if_true, if_false,
      ite_true, ite_false, hsQ, zero_mul, zero_add, add_zero]
    norm_num [ctrunc, fitToRange]
  have hpix_pw : ∀ (fnv : ℝ) (s : ℝ),
      floatPixel false Transform.POWER m m fnv 0 s = 0 := by
    intro fnv s
    simp only [floatPixel, addRawNoise, Bool.false_eq_true, reduceCtorEq,
      or_self, or_false, false_or, true_or, or_true, if_true, if_false,
      ite_true, ite_false, hsP, hoP, zero_mul, zero_add, add_zero]
    norm_num [ctrunc, fitToRange]
  have hpix_npw : ∀ (fnv : ℝ) (s : ℝ),
      floatPixel false Transform.NEGATIVE_POWER m m fnv 0 s = 65535 := by
    intro fnv s
    simp only [floatPixel, addRawNoise, Bool.false_eq_true, reduceCtorEq,
      or_self, or_false, false_or, true_or, or_true, if_true, if_false,
      ite_true, ite_false, hsP, hoP, zero_mul, zero_add, add_zero]
    norm_num [ctrunc, fitToRange]
  refine ⟨?_, ?_, ?_, ?_, ?_, ?_, hsS, hsQ, hsP, hoP, hlog, hlin⟩
  · exact floatDoubleTransform_const false fn (fun _ => 0) raw Transform.SQRT
      len width m m 0 hlen (by simp) (fun ii s => hpix_sqrt (fn ii) s)
  · exact floatDoubleTransform_const false fn (fun _ => 0) raw
      Transform.NEGATIVE_SQRT len width m m 65535 hlen (by simp)
      (fun ii s => hpix_nsqrt (fn ii) s)
  · exact floatDoubleTransform_const false fn (fun _ => 0) raw
      Transform.SQUARED len width m m 0 hlen (by simp)
      (fun ii s => hpix_sq (fn ii) s)
  · exact floatDoubleTransform_const false fn (fun _ => 0) raw
      Transform.NEGATIVE_SQUARED len width m m 65535 hlen (by simp)
      (fun ii s => hpix_nsq (fn ii) s)
  · exact floatDoubleTransform_const false fn (fun _ => 0) raw
      Transform.POWER len width m m 0 hlen (by simp)
      (fun ii s => hpix_pw (fn ii) s)
  · exact floatDoubleTransform_const false fn (fun _ => 0) raw
      Transform.NEGATIVE_POWER len width m m 65535 hlen (by simp)
      (fun ii s => hpix_npw (fn ii) s)

/-- Witness for the degenerate-range behaviour at `m = 0`, a one-sample
buffer: SQRT yields the constant buffer `[0]`, and LINEAR's divisor is 0. -/
theorem degenerate_range_behavior_witness :
    floatDoubleTransform false (fun _ => 0) (fun _ => 0) [0] Transform.SQRT
      1 0 0 1 = some (List.replicate 1 0) ∧ linearDenom 0 0 = 0 := by
  have h := degenerate_range_behavior 0 (fun _ => 0) [0] 1 1 (by norm_num)
  exact ⟨h.1, h.2.2.2.2.2.2.2.2.2.2.2 (le_refl 0)⟩

/-- Witness for the flag-independence: two different flag settings yield the
same result on a concrete call. -/
theorem benchmark_ignores_flags_witness :
    performQualityBenchmarking ⟨false, false, true, true, [true], true⟩
      ⟨0, 0, 0, 1, 0, 1, [⟨1, 1, 16, false, [1]⟩]⟩
      ⟨0, 0, 0, 1, 0, 1, [⟨1, 1, 16, false, [0]⟩]⟩
      ⟨false, false, false, true, false, false, false, false, false, true,
        false⟩ =
    performQualityBenchmarking ⟨false, false, true, true, [true], true⟩
      ⟨0, 0, 0, 1, 0, 1, [⟨1, 1, 16, false, [1]⟩]⟩
      ⟨0, 0, 0, 1, 0, 1, [⟨1, 1, 16, false, [0]⟩]⟩
      ⟨true, true, true, true, true, true, true, true, true, true, true⟩ :=
  benchmark_ignores_flags.1 ⟨false, false, true, true, [true], true⟩
    ⟨0, 0, 0, 1, 0, 1, [⟨1, 1, 16, false, [1]⟩]⟩
    ⟨0, 0, 0, 1, 0, 1, [⟨1, 1, 16, false, [0]⟩]⟩
    ⟨false, false, false, true, false, false, false, false, false, true, false⟩
    ⟨true, true, true, true, true, true, true, true, true, true, true⟩

/-- Witness for the return-code characterisation at a concrete call whose
comparison overflows nothing and succeeds: the return code is 0 or 1. -/
theorem retcode_characterization_witness :
    (performQualityBenchmarking ⟨false, false, true, true, [true], true⟩
      ⟨0, 0, 0, 1, 0, 1, [⟨1, 1, 16, false, [1]⟩]⟩
      ⟨0, 0, 0, 1, 0, 1, [⟨1, 1, 16, false, [0]⟩]⟩
      ⟨true, true, true, true, true, true, true, true, true, true, true⟩).retcode = 0 ∨
    (performQualityBenchmarking ⟨false, false, true, true, [true], true⟩
      ⟨0, 0, 0, 1, 0, 1, [⟨1, 1, 16, false, [1]⟩]⟩
      ⟨0, 0, 0, 1, 0, 1, [⟨1, 1, 16, false, [0]⟩]⟩
      ⟨true, true, true, true, true, true, true, true, true, true, true⟩).retcode = 1 :=
  (retcode_characterization ⟨false, false, true, true, [true], true⟩
    ⟨0, 0, 0, 1, 0, 1, [⟨1, 1, 16, false, [1]⟩]⟩
    ⟨0, 0, 0, 1, 0, 1, [⟨1, 1, 16, false, [0]⟩]⟩
    ⟨true, true, true, true, true, true, true, true, true, true, true⟩).2
